import Mathlib

/-!
Verification of the wario WebAssembly interpreter (src/wasm.rs, src/vm.rs,
src/parser.rs) against its natural-language specification.

The data model mirrors `src/wasm.rs`, the interpreter mirrors
`Machine::invoke` in `src/vm.rs`, and the binary decoder mirrors
`src/parser.rs`.  Rust `i32` values are modelled as `Int` together with the
32-bit range predicate; `usize`/`u32` values as `Nat`.  The interpreter and
the decoder loops take an explicit fuel argument (the Rust code recurses on
the host stack / loops on the byte stream); running out of fuel is the
distinguished outcome `timeout`, which no theorem below ever relies on.
Rust panics (index out of bounds, `unwrap` on empty pop, `assert_eq!`
failures, explicit panic calls, and debug-profile arithmetic/shift overflow
checks) are modelled as the distinguished `panik` outcomes: the default
`cargo build`/`cargo test` profile enables overflow checks, so `left +
right` on `i32` aborts rather than wraps when the mathematical result
leaves the 32-bit range, and `x << shift` aborts when `shift ≥ 32`.
-/

namespace Wario

/-! ## Data model (src/wasm.rs) -/

inductive ValueType where
  | I32
  | I64
  | F32
  | F64
  deriving DecidableEq, Repr

structure FuncType where
  parameter_types : List ValueType
  result_types : List ValueType
  deriving DecidableEq, Repr

structure TypeIdx where
  val : Nat
  deriving DecidableEq, Repr

structure FuncIdx where
  val : Nat
  deriving DecidableEq, Repr

structure TableIdx where
  val : Nat
  deriving DecidableEq, Repr

structure MemIdx where
  val : Nat
  deriving DecidableEq, Repr

structure GlobalIdx where
  val : Nat
  deriving DecidableEq, Repr

structure LocalIdx where
  val : Nat
  deriving DecidableEq, Repr

structure LabelIdx where
  val : Nat
  deriving DecidableEq, Repr

/-- Note: `wasm.rs` names this enum `ElemType`; `parser.rs` refers to it as
`RefType`.  One type with the single `FuncRef` constructor models both. -/
inductive ElemType where
  | FuncRef
  deriving DecidableEq, Repr

structure Limits where
  min : Nat
  max : Option Nat
  deriving DecidableEq, Repr

structure TableType where
  elem_type : ElemType
  limits : Limits
  deriving DecidableEq, Repr

structure MemType where
  limits : Limits
  deriving DecidableEq, Repr

inductive Mutability where
  | Constant
  | Variable
  deriving DecidableEq, Repr

structure GlobalType where
  value_type : ValueType
  mutability : Mutability
  deriving DecidableEq, Repr

inductive ImportDescriptor where
  | Func (idx : TypeIdx)
  | Table (t : TableType)
  | Memory (t : MemType)
  | Global (t : GlobalType)
  deriving DecidableEq, Repr

/-- Rust `Name(String)`: a Rust `String` is a byte vector holding valid
UTF-8, so the model stores the raw bytes. -/
structure Name where
  bytes : List Nat
  deriving DecidableEq, Repr

structure Import where
  module : Name
  name : Name
  descriptor : ImportDescriptor
  deriving DecidableEq, Repr

inductive BlockType where
  | Empty
  deriving DecidableEq, Repr

structure MemArg where
  align : Nat
  offset : Nat
  deriving DecidableEq, Repr

/-- The `Instruction` enum from `src/wasm.rs`.  The `F64Const` payload is the raw
64-bit little-endian pattern produced by `f64::from_le_bytes`; no
floating-point arithmetic is ever performed on it (the interpreter panics
on every `F64` opcode). -/
inductive Instruction where
  | Unreachable
  | Block (bt : BlockType) (body : List Instruction)
  | Loop (bt : BlockType) (body : List Instruction)
  | If (bt : BlockType) (thenBody : List Instruction) (elseBody : List Instruction)
  | Branch (l : LabelIdx)
  | BranchIf (l : LabelIdx)
  | Return
  | Call (fi : FuncIdx)
  | LocalGet (i : LocalIdx)
  | LocalSet (i : LocalIdx)
  | GlobalGet (i : GlobalIdx)
  | GlobalSet (i : GlobalIdx)
  | I32Load (m : MemArg)
  | I32Store (m : MemArg)
  | I32Const (v : Int)
  | F64Const (bits : Nat)
  | I32Eq
  | I32GtSigned
  | F64Lt
  | F64Gt
  | F64Ge
  | I32Add
  | I32Sub
  | I32Mul
  | F64Add
  | F64Sub
  | F64Mul
  | F64Div

structure Global where
  global_type : GlobalType
  expression : List Instruction

inductive ExportDescriptor where
  | Func (i : FuncIdx)
  | Table (i : TableIdx)
  | Memory (i : MemIdx)
  | Global (i : GlobalIdx)
  deriving DecidableEq, Repr

structure Export where
  name : Name
  descriptor : ExportDescriptor
  deriving DecidableEq, Repr

structure Code where
  locals : List ValueType
  body : List Instruction

structure Locals where
  n : Nat
  t : ValueType
  deriving DecidableEq, Repr

inductive Section where
  | Custom
  | Type (v : List FuncType)
  | Import (v : List Import)
  | Function (v : List TypeIdx)
  | Table
  | Memory (v : List Limits)
  | Global (v : List Global)
  | Export (v : List Export)
  | Start
  | Element
  | Code (v : List Code)
  | Data

structure Preamble where
  magic : List Nat
  version : List Nat
  deriving DecidableEq, Repr

structure Module where
  preamble : Preamble
  types : List FuncType
  imports : List Import
  functions : List TypeIdx
  memories : List Limits
  globals : List Global
  exports : List Export
  codes : List Code

/-! ## Interpreter (src/vm.rs) -/

structure Func where
  ftype : FuncType
  code : Code

inductive ControlFlow where
  | Return
  | Branch (level : Nat)
  deriving DecidableEq, Repr

/-- The `ExternFunction` record from `src/vm.rs`: the `FnMut(&[i32]) -> Option<i32>`
callback is modelled as a pure function on the argument list. -/
structure ExternFunction where
  param_count : Nat
  fn : List Int → Option Int

/-- The `Machine` state: operand stack and linear memory.  The Rust `Vec<i32>`
stack pushes/pops at its end; here the list HEAD is the top of the stack.
The `debugging` flag only gates `println!` tracing and is omitted. -/
structure Machine where
  stack : List Int
  memory : List Int
  deriving DecidableEq, Repr

/-- Result of one `Machine::invoke` call: normal completion carries the
machine state and the `Option<ControlFlow>` return value; `panik` is a Rust
panic (abort); `timeout` is model-only fuel exhaustion. -/
inductive ExecRes where
  | ok (m : Machine) (cf : Option ControlFlow)
  | panik
  | timeout
  deriving DecidableEq, Repr

/-- The signed 32-bit range check applied by Rust's debug-profile
arithmetic: `left + right` etc. panic when the result leaves it. -/
def i32InRange (x : Int) : Bool :=
  -2147483648 ≤ x && x < 2147483648

/-- The interpreter `Machine::invoke` from `src/vm.rs`, by recursion on fuel.  For each
instruction of `code`, in order: execute it (possibly recursing into a
nested body or a callee) and either continue with the rest of the body or
return early with a `ControlFlow`.  Falling off the end returns `none`.

Stack-order bookkeeping: Rust `stack.split_off(len - n)` removes the top
`n` values and returns them bottom-to-top; with the list head as top of
stack this is `(stack.take n).reverse`, leaving `stack.drop n`. -/
def invoke (F : List Func) (E : List ExternFunction) :
    Nat → Machine → List Instruction → List Int → ExecRes
  | 0, _, _, _ => .timeout
  | _ + 1, m, [], _ => .ok m none
  | fuel + 1, m, instr :: rest, locals =>
    match instr with
    | .I32Const v => invoke F E fuel { m with stack := v :: m.stack } rest locals
    | .I32Load memarg =>
      match m.memory.get? memarg.offset with
      | some v => invoke F E fuel { m with stack := v :: m.stack } rest locals
      | none => .panik
    | .I32Store memarg =>
      match m.stack with
      | v :: s =>
        if memarg.offset < m.memory.length then
          invoke F E fuel { stack := s, memory := m.memory.set memarg.offset v } rest locals
        else .panik
      | [] => .panik
    | .I32Add =>
      match m.stack with
      | right :: left :: s =>
        if i32InRange (left + right) then
          invoke F E fuel { m with stack := (left + right) :: s } rest locals
        else .panik
      | _ => .panik
    | .I32Sub =>
      match m.stack with
      | right :: left :: s =>
        if i32InRange (left - right) then
          invoke F E fuel { m with stack := (left - right) :: s } rest locals
        else .panik
      | _ => .panik
    | .I32Mul =>
      match m.stack with
      | right :: left :: s =>
        if i32InRange (left * right) then
          invoke F E fuel { m with stack := (left * right) :: s } rest locals
        else .panik
      | _ => .panik
    | .I32Eq =>
      match m.stack with
      | right :: left :: s =>
        invoke F E fuel { m with stack := (if left = right then 1 else 0) :: s } rest locals
      | _ => .panik
    | .LocalGet i =>
      match locals.get? i.val with
      | some v => invoke F E fuel { m with stack := v :: m.stack } rest locals
      | none => .panik
    | .Call fi =>
      if h : fi.val < F.length then
        -- Func::call: pop param_count arguments into a fresh locals frame,
        -- invoke the body, and DISCARD the callee's ControlFlow result.
        let f := F.get ⟨fi.val, h⟩
        let n := f.ftype.parameter_types.length
        if n ≤ m.stack.length then
          match invoke F E fuel { m with stack := m.stack.drop n }
              f.code.body ((m.stack.take n).reverse) with
          | .ok m' _ => invoke F E fuel m' rest locals
          | e => e
        else .panik
      else
        match E.get? (fi.val - F.length) with
        | some ef =>
          -- ExternFunction::call: pop param_count arguments, hand them to
          -- the callback in pushed order, push an optional result.
          if ef.param_count ≤ m.stack.length then
            let args := (m.stack.take ef.param_count).reverse
            let m' := { m with stack := m.stack.drop ef.param_count }
            match ef.fn args with
            | some result => invoke F E fuel { m' with stack := result :: m'.stack } rest locals
            | none => invoke F E fuel m' rest locals
          else .panik
        | none => .panik
    | .Return => .ok m (some .Return)
    | .Branch l => .ok m (some (.Branch l.val))
    | .BranchIf l =>
      match m.stack with
      | condition :: s =>
        if condition ≠ 0 then .ok { m with stack := s } (some (.Branch l.val))
        else invoke F E fuel { m with stack := s } rest locals
      | [] => .panik
    | .Block _ block_code =>
      match invoke F E fuel m block_code locals with
      | .ok m' none => invoke F E fuel m' rest locals
      | .ok m' (some .Return) => .ok m' (some .Return)
      | .ok m' (some (.Branch level)) =>
        if level > 0 then .ok m' (some (.Branch (level - 1)))
        else invoke F E fuel m' rest locals
      | e => e
    | .Loop bt loop_code =>
      match invoke F E fuel m loop_code locals with
      | .ok m' none => invoke F E fuel m' (.Loop bt loop_code :: rest) locals
      | .ok m' (some .Return) => .ok m' (some .Return)
      | .ok m' (some (.Branch level)) =>
        if level > 0 then .ok m' (some (.Branch (level - 1)))
        else invoke F E fuel m' (.Loop bt loop_code :: rest) locals
      | e => e
    | _ => .panik

end Wario

namespace Wario

/-! ## Binary decoder (src/parser.rs)

The `File` is modelled as the immutable byte list `data` plus a cursor
`pos`; `file.read` returns `min size remaining` bytes, `seek(Current n)`
adds to the cursor, and `stream_position` is the cursor.  `ParseResult α`
is the Rust `ParseResult<T> = Result<T, ParseErr>` together with the
advanced cursor; the extra `panik` error constructor models the
out-of-band Rust panics (`panic!`, `assert_eq!`, debug-profile
shift-overflow checks) and `timeout` is model-only fuel exhaustion of the
unbounded Rust loops.  `pbind` is the `?` operator: continue on success,
propagate any failure. -/

/-- Payloads of the parser's panics.  `unsupportedOpcode` keeps exactly the
data interpolated into the `panic!` format string of
`Vec<Instruction>::parse`: the opcode, the stream position of the opcode
byte, and the instructions decoded so far. -/
inductive Panik where
  | unsupportedOpcode (opcode : Nat) (streamPos : Nat) (decodedSoFar : List Instruction)
  | unsupportedBlocktype (id : Nat)
  | assertEqFailed (left right : Nat)
  | shlOverflow (shift : Nat)

inductive ParseErr where
  | Err (msg : String)
  | Eof
  | panik (p : Panik)
  | timeout

abbrev ParseResult (α : Type) := Except ParseErr (α × Nat)

/-- The `?` operator of the Rust parser. -/
def pbind {α β : Type} (x : ParseResult α) (f : α → Nat → ParseResult β) : ParseResult β :=
  match x with
  | .ok (v, p) => f v p
  | .error e => .error e

/-- Fixed-width read `<[u8; SIZE] as Parse>::parse`: a full read succeeds, a zero-byte read
is `Eof`, a partial read is `Err`. -/
def readFixed (data : List Nat) (pos size : Nat) : ParseResult (List Nat) :=
  let s := min size (data.length - pos)
  if s = size then .ok ((data.drop pos).take size, pos + size)
  else if s = 0 then .error .Eof
  else .error (.Err ("Unable to read data: expected size to be read: "
    ++ toString size ++ " actual size read: " ++ toString s))

/-- Byte read `<u8 as Parse>::parse`. -/
def parseU8 (data : List Nat) (pos : Nat) : ParseResult Nat :=
  pbind (readFixed data pos 1) fun buf pos' => .ok (buf.headD 0, pos')

/-- Loop of `parse_leb128_u32`.  Each iteration reads a byte, computes
`result |= (value & 0x7f) << shift` — which under the default dev/test
profile panics as soon as `shift ≥ 32` — and stops when the continuation
bit is clear, else continues with `shift + 7`.  `result` is the `u32`
accumulator (always below `2^32`). -/
def parse_leb128_u32_go (data : List Nat) : Nat → Nat → Nat → Nat → ParseResult Nat
  | 0, _, _, _ => .error .timeout
  | fuel + 1, pos, shift, result =>
    pbind (parseU8 data pos) fun value pos' =>
      if 32 ≤ shift then .error (.panik (.shlOverflow shift))
      else
        let result' := result ||| (((value &&& 0x7f) <<< shift) % 4294967296)
        if value &&& 0x80 = 0 then .ok (result', pos')
        else parse_leb128_u32_go data fuel pos' (shift + 7) result'

/-- Function `parse_leb128_u32`.  The shift check aborts the 6th iteration (shift
35) at the latest, so fuel 6 makes the fuel recursion exact: the `timeout`
outcome is unreachable from here. -/
def parse_leb128_u32 (data : List Nat) (pos : Nat) : ParseResult Nat :=
  parse_leb128_u32_go data 6 pos 0 0

/-- Reinterpret a 32-bit pattern as a signed `i32`. -/
def toI32 (pattern : Nat) : Int :=
  if pattern < 2147483648 then (pattern : Int) else (pattern : Int) - 4294967296

/-- Loop of `parse_leb128_i32`, identical accumulation on the `i32` bit
pattern; returns the pattern, the final shift, and the last byte read
(whose bit 6 decides sign extension). -/
def parse_leb128_i32_go (data : List Nat) :
    Nat → Nat → Nat → Nat → ParseResult (Nat × Nat × Nat)
  | 0, _, _, _ => .error .timeout
  | fuel + 1, pos, shift, result =>
    pbind (parseU8 data pos) fun value pos' =>
      if 32 ≤ shift then .error (.panik (.shlOverflow shift))
      else
        let result' := result ||| (((value &&& 0x7f) <<< shift) % 4294967296)
        if value &&& 0x80 = 0 then .ok ((result', shift, value), pos')
        else parse_leb128_i32_go data fuel pos' (shift + 7) result'

/-- Function `parse_leb128_i32`: after the loop (fuel 6 is exact, as above), if bit
6 of the last byte is set, `result |= !0 << shift` sign-extends the
pattern (the final shift is below 32 whenever the loop exits normally, so
this shift cannot panic). -/
def parse_leb128_i32 (data : List Nat) (pos : Nat) : ParseResult Int :=
  pbind (parse_leb128_i32_go data 6 pos 0 0) fun r pos' =>
    let pattern := r.1
    let shift := r.2.1
    let value := r.2.2
    let pattern' :=
      if value &&& 0x40 ≠ 0 then pattern ||| ((4294967295 <<< shift) % 4294967296)
      else pattern
    .ok (toI32 pattern', pos')

/-- Float read `<f64 as Parse>::parse`: 8 little-endian bytes, kept as the raw 64-bit
pattern. -/
def parse_f64 (data : List Nat) (pos : Nat) : ParseResult Nat :=
  pbind (readFixed data pos 8) fun bytes pos' =>
    .ok (bytes.foldr (fun b acc => b + 256 * acc) 0, pos')

/-- Vector elements of `<Vec<T> as Parse>::parse`: `n` parses of the element. -/
def parseVecN {α : Type} (p : Nat → ParseResult α) : Nat → Nat → ParseResult (List α)
  | 0, pos => .ok ([], pos)
  | n + 1, pos =>
    pbind (p pos) fun v pos1 =>
    pbind (parseVecN p n pos1) fun vs pos2 =>
    .ok (v :: vs, pos2)

/-- Vector read `<Vec<T> as Parse>::parse`: an unsigned LEB128 count, then that many
element parses. -/
def parseVec {α : Type} (data : List Nat) (p : Nat → ParseResult α) (pos : Nat) :
    ParseResult (List α) :=
  pbind (parse_leb128_u32 data pos) fun n pos1 => parseVecN p n pos1

/-- Preamble read `<Preamble as Parse>::parse`. -/
def Preamble.parse (data : List Nat) (pos : Nat) : ParseResult Preamble :=
  pbind (readFixed data pos 4) fun magic pos1 =>
    if magic ≠ [0x00, 0x61, 0x73, 0x6d] then .error (.Err "Invalid magic value")
    else
      pbind (readFixed data pos1 4) fun version pos2 =>
        if version ≠ [1, 0, 0, 0] then .error (.Err "Invalid version")
        else .ok (⟨magic, version⟩, pos2)

/-- Value-type read `<ValueType as Parse>::parse`. -/
def ValueType.parse (data : List Nat) (pos : Nat) : ParseResult ValueType :=
  pbind (parseU8 data pos) fun value_type pos' =>
    match value_type with
    | 0x7f => .ok (ValueType.I32, pos')
    | 0x7e => .ok (ValueType.I64, pos')
    | 0x7d => .ok (ValueType.F32, pos')
    | 0x7c => .ok (ValueType.F64, pos')
    | _ => .error (.Err ("Invalid value type encountered: " ++ toString value_type))

/-- Function-type read `<FuncType as Parse>::parse`: marker byte `0x60`, then the parameter
and result type vectors. -/
def FuncType.parse (data : List Nat) (pos : Nat) : ParseResult FuncType :=
  pbind (parseU8 data pos) fun marker pos1 =>
    if marker ≠ 0x60 then
      .error (.Err ("Invalid marker found for FuncType: " ++ toString marker))
    else
      pbind (parseVec data (ValueType.parse data) pos1) fun parameter_types pos2 =>
      pbind (parseVec data (ValueType.parse data) pos2) fun result_types pos3 =>
      .ok (⟨parameter_types, result_types⟩, pos3)

/-- The seven index newtypes all parse as an unsigned LEB128. -/
def TypeIdx.parse (data : List Nat) (pos : Nat) : ParseResult TypeIdx :=
  pbind (parse_leb128_u32 data pos) fun v pos' => .ok (⟨v⟩, pos')

def FuncIdx.parse (data : List Nat) (pos : Nat) : ParseResult FuncIdx :=
  pbind (parse_leb128_u32 data pos) fun v pos' => .ok (⟨v⟩, pos')

def TableIdx.parse (data : List Nat) (pos : Nat) : ParseResult TableIdx :=
  pbind (parse_leb128_u32 data pos) fun v pos' => .ok (⟨v⟩, pos')

def MemIdx.parse (data : List Nat) (pos : Nat) : ParseResult MemIdx :=
  pbind (parse_leb128_u32 data pos) fun v pos' => .ok (⟨v⟩, pos')

def GlobalIdx.parse (data : List Nat) (pos : Nat) : ParseResult GlobalIdx :=
  pbind (parse_leb128_u32 data pos) fun v pos' => .ok (⟨v⟩, pos')

def LocalIdx.parse (data : List Nat) (pos : Nat) : ParseResult LocalIdx :=
  pbind (parse_leb128_u32 data pos) fun v pos' => .ok (⟨v⟩, pos')

def LabelIdx.parse (data : List Nat) (pos : Nat) : ParseResult LabelIdx :=
  pbind (parse_leb128_u32 data pos) fun v pos' => .ok (⟨v⟩, pos')

/-- The `RefType`/`ElemType` parse: only `0x70` (funcref). -/
def ElemType.parse (data : List Nat) (pos : Nat) : ParseResult ElemType :=
  pbind (parseU8 data pos) fun b pos' =>
    match b with
    | 0x70 => .ok (ElemType.FuncRef, pos')
    | _ => .error (.Err ("Invalid RefType: " ++ toString b))

/-- Limits read `<Limits as Parse>::parse`: `has_max` is the leading byte compared for
equality with `1` — nothing else is checked about that byte. -/
def Limits.parse (data : List Nat) (pos : Nat) : ParseResult Limits :=
  pbind (parseU8 data pos) fun b pos1 =>
    let has_max := b = 1
    pbind (parse_leb128_u32 data pos1) fun mn pos2 =>
      if has_max then
        pbind (parse_leb128_u32 data pos2) fun mx pos3 => .ok (⟨mn, some mx⟩, pos3)
      else .ok (⟨mn, none⟩, pos2)

def TableType.parse (data : List Nat) (pos : Nat) : ParseResult TableType :=
  pbind (ElemType.parse data pos) fun elem_type pos1 =>
  pbind (Limits.parse data pos1) fun limits pos2 =>
  .ok (⟨elem_type, limits⟩, pos2)

def MemType.parse (data : List Nat) (pos : Nat) : ParseResult MemType :=
  pbind (Limits.parse data pos) fun limits pos' => .ok (⟨limits⟩, pos')

def Mutability.parse (data : List Nat) (pos : Nat) : ParseResult Mutability :=
  pbind (parseU8 data pos) fun b pos' =>
    match b with
    | 0x00 => .ok (Mutability.Constant, pos')
    | 0x01 => .ok (Mutability.Variable, pos')
    | _ => .error (.Err ("Invalid mutability: " ++ toString b))

def GlobalType.parse (data : List Nat) (pos : Nat) : ParseResult GlobalType :=
  pbind (ValueType.parse data pos) fun value_type pos1 =>
  pbind (Mutability.parse data pos1) fun mutability pos2 =>
  .ok (⟨value_type, mutability⟩, pos2)

def ImportDescriptor.parse (data : List Nat) (pos : Nat) : ParseResult ImportDescriptor :=
  pbind (parseU8 data pos) fun b pos1 =>
    match b with
    | 0x00 => pbind (TypeIdx.parse data pos1) fun idx pos2 =>
        .ok (ImportDescriptor.Func idx, pos2)
    | 0x01 => pbind (TableType.parse data pos1) fun t pos2 =>
        .ok (ImportDescriptor.Table t, pos2)
    | 0x02 => pbind (MemType.parse data pos1) fun t pos2 =>
        .ok (ImportDescriptor.Memory t, pos2)
    | 0x03 => pbind (GlobalType.parse data pos1) fun t pos2 =>
        .ok (ImportDescriptor.Global t, pos2)
    | _ => .error (.Err ("Invalid import descriptor type: " ++ toString b))

/-- Continuation byte test for UTF-8: `0x80 ..= 0xBF`. -/
def isCont (b : Nat) : Bool := 0x80 ≤ b && b ≤ 0xbf

/-- Validity of a byte sequence as UTF-8 (RFC 3629), the check performed by
Rust's `String::from_utf8`. -/
def validUtf8 : List Nat → Bool
  | [] => true
  | b :: rest =>
    if b ≤ 0x7f then validUtf8 rest
    else if 0xc2 ≤ b && b ≤ 0xdf then
      match rest with
      | c1 :: rest' => isCont c1 && validUtf8 rest'
      | [] => false
    else if b = 0xe0 then
      match rest with
      | c1 :: c2 :: rest' => (0xa0 ≤ c1 && c1 ≤ 0xbf) && isCont c2 && validUtf8 rest'
      | _ => false
    else if (0xe1 ≤ b && b ≤ 0xec) || b = 0xee || b = 0xef then
      match rest with
      | c1 :: c2 :: rest' => isCont c1 && isCont c2 && validUtf8 rest'
      | _ => false
    else if b = 0xed then
      match rest with
      | c1 :: c2 :: rest' => (0x80 ≤ c1 && c1 ≤ 0x9f) && isCont c2 && validUtf8 rest'
      | _ => false
    else if b = 0xf0 then
      match rest with
      | c1 :: c2 :: c3 :: rest' =>
        (0x90 ≤ c1 && c1 ≤ 0xbf) && isCont c2 && isCont c3 && validUtf8 rest'
      | _ => false
    else if 0xf1 ≤ b && b ≤ 0xf3 then
      match rest with
      | c1 :: c2 :: c3 :: rest' => isCont c1 && isCont c2 && isCont c3 && validUtf8 rest'
      | _ => false
    else if b = 0xf4 then
      match rest with
      | c1 :: c2 :: c3 :: rest' =>
        (0x80 ≤ c1 && c1 ≤ 0x8f) && isCont c2 && isCont c3 && validUtf8 rest'
      | _ => false
    else false

/-- Name read `<Name as Parse>::parse`: a length-prefixed byte vector validated as
UTF-8 by `String::from_utf8`; invalid UTF-8 is an `Err` (the Rust message
carries the `FromUtf8Error` detail, elided here). -/
def Name.parse (data : List Nat) (pos : Nat) : ParseResult Name :=
  pbind (parseVec data (parseU8 data) pos) fun bytes pos1 =>
    if validUtf8 bytes then .ok (⟨bytes⟩, pos1)
    else .error (.Err "Invalid UTF8 string")

def Import.parse (data : List Nat) (pos : Nat) : ParseResult Import :=
  pbind (Name.parse data pos) fun module pos1 =>
  pbind (Name.parse data pos1) fun name pos2 =>
  pbind (ImportDescriptor.parse data pos2) fun descriptor pos3 =>
  .ok (⟨module, name, descriptor⟩, pos3)

/-- Blocktype read `<BlockType as Parse>::parse`: `0x40` is the empty blocktype; any other
byte hits the `panic!` arm. -/
def BlockType.parse (data : List Nat) (pos : Nat) : ParseResult BlockType :=
  pbind (parseU8 data pos) fun id pos' =>
    match id with
    | 0x40 => .ok (BlockType.Empty, pos')
    | _ => .error (.panik (.unsupportedBlocktype id))

def MemArg.parse (data : List Nat) (pos : Nat) : ParseResult MemArg :=
  pbind (parse_leb128_u32 data pos) fun align pos1 =>
  pbind (parse_leb128_u32 data pos1) fun offset pos2 =>
  .ok (⟨align, offset⟩, pos2)

/-- Instruction-tree read `<Vec<Instruction> as Parse>::parse`: read opcodes until an `else`
(`0x05`) or `end` (`0x0B`) sentinel, pushing each decoded instruction onto
the accumulator `result`; nested bodies restart with an empty accumulator.
An unrecognised opcode hits the `panic!` arm, whose payload carries the
opcode, the stream position of the opcode byte, and `result`. -/
def parseInstructions (data : List Nat) :
    Nat → Nat → List Instruction → ParseResult (List Instruction)
  | 0, _, _ => .error .timeout
  | fuel + 1, pos, result =>
    pbind (parseU8 data pos) fun opcode pos1 =>
      match opcode with
      | 0x05 => .ok (result, pos1)
      | 0x0B => .ok (result, pos1)
      | 0x00 => parseInstructions data fuel pos1 (result ++ [.Unreachable])
      | 0x02 =>
        pbind (BlockType.parse data pos1) fun bt pos2 =>
        pbind (parseInstructions data fuel pos2 []) fun body pos3 =>
        parseInstructions data fuel pos3 (result ++ [.Block bt body])
      | 0x03 =>
        pbind (BlockType.parse data pos1) fun bt pos2 =>
        pbind (parseInstructions data fuel pos2 []) fun body pos3 =>
        parseInstructions data fuel pos3 (result ++ [.Loop bt body])
      | 0x04 =>
        pbind (BlockType.parse data pos1) fun bt pos2 =>
        pbind (parseInstructions data fuel pos2 []) fun thenBody pos3 =>
        pbind (parseInstructions data fuel pos3 []) fun elseBody pos4 =>
        parseInstructions data fuel pos4 (result ++ [.If bt thenBody elseBody])
      | 0x0C =>
        pbind (LabelIdx.parse data pos1) fun l pos2 =>
        parseInstructions data fuel pos2 (result ++ [.Branch l])
      | 0x0D =>
        pbind (LabelIdx.parse data pos1) fun l pos2 =>
        parseInstructions data fuel pos2 (result ++ [.BranchIf l])
      | 0x0F => parseInstructions data fuel pos1 (result ++ [.Return])
      | 0x10 =>
        pbind (FuncIdx.parse data pos1) fun fi pos2 =>
        parseInstructions data fuel pos2 (result ++ [.Call fi])
      | 0x20 =>
        pbind (LocalIdx.parse data pos1) fun i pos2 =>
        parseInstructions data fuel pos2 (result ++ [.LocalGet i])
      | 0x21 =>
        pbind (LocalIdx.parse data pos1) fun i pos2 =>
        parseInstructions data fuel pos2 (result ++ [.LocalSet i])
      | 0x23 =>
        pbind (GlobalIdx.parse data pos1) fun i pos2 =>
        parseInstructions data fuel pos2 (result ++ [.GlobalGet i])
      | 0x24 =>
        pbind (GlobalIdx.parse data pos1) fun i pos2 =>
        parseInstructions data fuel pos2 (result ++ [.GlobalSet i])
      | 0x28 =>
        pbind (MemArg.parse data pos1) fun memarg pos2 =>
        parseInstructions data fuel pos2 (result ++ [.I32Load memarg])
      | 0x36 =>
        pbind (MemArg.parse data pos1) fun memarg pos2 =>
        parseInstructions data fuel pos2 (result ++ [.I32Store memarg])
      | 0x41 =>
        pbind (parse_leb128_i32 data pos1) fun v pos2 =>
        parseInstructions data fuel pos2 (result ++ [.I32Const v])
      | 0x44 =>
        pbind (parse_f64 data pos1) fun bits pos2 =>
        parseInstructions data fuel pos2 (result ++ [.F64Const bits])
      | 0x46 => parseInstructions data fuel pos1 (result ++ [.I32Eq])
      | 0x4A => parseInstructions data fuel pos1 (result ++ [.I32GtSigned])
      | 0x63 => parseInstructions data fuel pos1 (result ++ [.F64Lt])
      | 0x64 => parseInstructions data fuel pos1 (result ++ [.F64Gt])
      | 0x66 => parseInstructions data fuel pos1 (result ++ [.F64Ge])
      | 0x6A => parseInstructions data fuel pos1 (result ++ [.I32Add])
      | 0x6B => parseInstructions data fuel pos1 (result ++ [.I32Sub])
      | 0x6C => parseInstructions data fuel pos1 (result ++ [.I32Mul])
      | 0xA0 => parseInstructions data fuel pos1 (result ++ [.F64Add])
      | 0xA1 => parseInstructions data fuel pos1 (result ++ [.F64Sub])
      | 0xA2 => parseInstructions data fuel pos1 (result ++ [.F64Mul])
      | 0xA3 => parseInstructions data fuel pos1 (result ++ [.F64Div])
      | _ => .error (.panik (.unsupportedOpcode opcode (pos1 - 1) result))

def Global.parse (data : List Nat) (fuel pos : Nat) : ParseResult Global :=
  pbind (GlobalType.parse data pos) fun global_type pos1 =>
  pbind (parseInstructions data fuel pos1 []) fun expression pos2 =>
  .ok (⟨global_type, expression⟩, pos2)

def ExportDescriptor.parse (data : List Nat) (pos : Nat) : ParseResult ExportDescriptor :=
  pbind (parseU8 data pos) fun b pos1 =>
    match b with
    | 0x00 => pbind (FuncIdx.parse data pos1) fun i pos2 =>
        .ok (ExportDescriptor.Func i, pos2)
    | 0x01 => pbind (TableIdx.parse data pos1) fun i pos2 =>
        .ok (ExportDescriptor.Table i, pos2)
    | 0x02 => pbind (MemIdx.parse data pos1) fun i pos2 =>
        .ok (ExportDescriptor.Memory i, pos2)
    | 0x03 => pbind (GlobalIdx.parse data pos1) fun i pos2 =>
        .ok (ExportDescriptor.Global i, pos2)
    | _ => .error (.Err ("Invalid export descriptor type: " ++ toString b))

def Export.parse (data : List Nat) (pos : Nat) : ParseResult Export :=
  pbind (Name.parse data pos) fun name pos1 =>
  pbind (ExportDescriptor.parse data pos1) fun descriptor pos2 =>
  .ok (⟨name, descriptor⟩, pos2)

def Locals.parse (data : List Nat) (pos : Nat) : ParseResult Locals :=
  pbind (parse_leb128_u32 data pos) fun n pos1 =>
  pbind (ValueType.parse data pos1) fun t pos2 =>
  .ok (⟨n, t⟩, pos2)

/-- Code-entry read `<Code as Parse>::parse`: a declared byte size, then the `(n, t)` local
runs expanded with `vec![t; n]`, then the instruction body; afterwards
`assert_eq!` compares the declared size against the bytes consumed. -/
def Code.parse (data : List Nat) (fuel pos : Nat) : ParseResult Code :=
  pbind (parse_leb128_u32 data pos) fun sizeDecl start =>
  pbind (parseVec data (Locals.parse data) start) fun localRuns pos2 =>
  let locals := localRuns.flatMap (fun l => List.replicate l.n l.t)
  pbind (parseInstructions data fuel pos2 []) fun body pos3 =>
  if sizeDecl = pos3 - start then .ok (⟨locals, body⟩, pos3)
  else .error (.panik (.assertEqFailed sizeDecl (pos3 - start)))

/-- Section read `<Section as Parse>::parse`: a one-byte id and a LEB128 size; the
recognised ids parse their payload, the valid-but-skipped ids
(`Custom`/`Table`/`Start`/`Element`/`Data`) seek forward by `size`, and
any other id is an `Err`.  Afterwards `assert_eq!` compares the declared
size against the cursor movement. -/
def Section.parse (data : List Nat) (fuel pos : Nat) : ParseResult Section :=
  pbind (parseU8 data pos) fun id pos1 =>
  pbind (parse_leb128_u32 data pos1) fun size start =>
  pbind (match id with
    | 0 => (.ok (Section.Custom, start) : ParseResult Section)
    | 1 => pbind (parseVec data (FuncType.parse data) start) fun v p =>
        .ok (Section.Type v, p)
    | 2 => pbind (parseVec data (Import.parse data) start) fun v p =>
        .ok (Section.Import v, p)
    | 3 => pbind (parseVec data (TypeIdx.parse data) start) fun v p =>
        .ok (Section.Function v, p)
    | 4 => .ok (Section.Table, start)
    | 5 => pbind (parseVec data (Limits.parse data) start) fun v p =>
        .ok (Section.Memory v, p)
    | 6 => pbind (parseVec data (Global.parse data fuel) start) fun v p =>
        .ok (Section.Global v, p)
    | 7 => pbind (parseVec data (Export.parse data) start) fun v p =>
        .ok (Section.Export v, p)
    | 8 => .ok (Section.Start, start)
    | 9 => .ok (Section.Element, start)
    | 10 => pbind (parseVec data (Code.parse data fuel) start) fun v p =>
        .ok (Section.Code v, p)
    | 11 => .ok (Section.Data, start)
    | _ => .error (.Err ("Found unknown section id: " ++ toString id)))
  fun sec pos3 =>
  let stop := match sec with
    | .Type _ | .Import _ | .Function _ | .Memory _ | .Global _ | .Export _ | .Code _ => pos3
    | _ => pos3 + size
  if size = stop - start then .ok (sec, stop)
  else .error (.panik (.assertEqFailed size (stop - start)))

/-- Function `parse_sections`: read sections until `Section::parse` yields the `Eof`
sentinel, which — wherever inside the section it arose — is treated as the
clean end of the section list; an `Err` (and, in the model, a panic)
propagates. -/
def parse_sections (data : List Nat) (fuel : Nat) :
    Nat → Nat → ParseResult (List Section)
  | 0, _ => .error .timeout
  | n + 1, pos =>
    match Section.parse data fuel pos with
    | .ok (s, pos') =>
      (match parse_sections data fuel n pos' with
       | .ok (ss, p) => .ok (s :: ss, p)
       | e => e)
    | .error .Eof => .ok ([], pos)
    | .error e => .error e

/-- Outcome of `Module::parse`: Rust's `Result<Module, String>`, extended
with the panic outcome and model-only fuel exhaustion. -/
inductive ModuleParseOutcome where
  | ok (m : Module)
  | err (msg : String)
  | panik (p : Panik)
  | timeout

/-- Entry point `Module::parse`: parse the preamble (an `Eof` there becomes the
"Unexpected end of file detected" error), then all sections, then assign
each recognised section's payload to the module field (later sections of
the same id overwrite earlier ones).  The fuel `data.length + 1` dominates
every loop of the decoder, each iteration of which consumes at least one
byte; `parse_sections` never returns `Eof`, so that case is mapped to the
model-only `timeout`. -/
def Module.parse (data : List Nat) : ModuleParseOutcome :=
  let fuel := data.length + 1
  match Preamble.parse data 0 with
  | .error (.Err msg) => .err msg
  | .error .Eof => .err "Unexpected end of file detected"
  | .error (.panik p) => .panik p
  | .error .timeout => .timeout
  | .ok (preamble, pos) =>
    match parse_sections data fuel fuel pos with
    | .error (.Err msg) => .err msg
    | .error .Eof => .timeout
    | .error (.panik p) => .panik p
    | .error .timeout => .timeout
    | .ok (sections, _) =>
      let module0 : Module := ⟨preamble, [], [], [], [], [], [], []⟩
      ModuleParseOutcome.ok (sections.foldl (fun md s =>
        match s with
        | .Type types => { md with types := types }
        | .Import imports => { md with imports := imports }
        | .Function functions => { md with functions := functions }
        | .Memory memories => { md with memories := memories }
        | .Global globals => { md with globals := globals }
        | .Export exports => { md with exports := exports }
        | .Code codes => { md with codes := codes }
        | _ => md) module0)

/-- The instruction opcodes with a non-panicking arm in
`Vec<Instruction>::parse` (including the two sentinels). -/
def recognizedOpcodes : List Nat :=
  [0x05, 0x0B, 0x00, 0x02, 0x03, 0x04, 0x0C, 0x0D, 0x0F, 0x10,
   0x20, 0x21, 0x23, 0x24, 0x28, 0x36, 0x41, 0x44, 0x46, 0x4A,
   0x63, 0x64, 0x66, 0x6A, 0x6B, 0x6C, 0xA0, 0xA1, 0xA2, 0xA3]

end Wario

namespace Wario

/-- Claim C2: executing `Block(_, body')` runs `body'` recursively and maps
its control result: a `None` result continues with the next instruction of
the enclosing body; a `Return` result is propagated unchanged; a
`Branch(0)` result completes the block and execution continues after it; a
`Branch(k)` result with `k > 0` exits the enclosing invocation with
`Branch(k-1)`. -/
theorem block_control_result_mapping (F : List Func) (E : List ExternFunction)
    (fuel : Nat) (m : Machine) (bt : BlockType) (body' rest : List Instruction)
    (locals : List Int) :
    (∀ m', invoke F E fuel m body' locals = .ok m' none →
      invoke F E (fuel + 1) m (.Block bt body' :: rest) locals
        = invoke F E fuel m' rest locals) ∧
    (∀ m', invoke F E fuel m body' locals = .ok m' (some .Return) →
      invoke F E (fuel + 1) m (.Block bt body' :: rest) locals
        = .ok m' (some .Return)) ∧
    (∀ m', invoke F E fuel m body' locals = .ok m' (some (.Branch 0)) →
      invoke F E (fuel + 1) m (.Block bt body' :: rest) locals
        = invoke F E fuel m' rest locals) ∧
    (∀ m' k, invoke F E fuel m body' locals = .ok m' (some (.Branch (k + 1))) →
      invoke F E (fuel + 1) m (.Block bt body' :: rest) locals
        = .ok m' (some (.Branch k))) := by
  refine ⟨fun m' h => ?_, fun m' h => ?_, fun m' h => ?_, fun m' k h => ?_⟩ <;>
    simp [invoke, h]

/-- Witness for `block_control_result_mapping`: all four clauses applied at
concrete inputs. -/
theorem block_control_result_mapping_witness :
    invoke [] [] 3 ⟨[], []⟩ [.Block .Empty [], .I32Const 7] [] = .ok ⟨[7], []⟩ none ∧
    invoke [] [] 3 ⟨[], []⟩ [.Block .Empty [.Return], .I32Const 7] []
      = .ok ⟨[], []⟩ (some .Return) ∧
    invoke [] [] 3 ⟨[], []⟩ [.Block .Empty [.Branch ⟨0⟩], .I32Const 7] []
      = .ok ⟨[7], []⟩ none ∧
    invoke [] [] 3 ⟨[], []⟩ [.Block .Empty [.Branch ⟨3⟩], .I32Const 7] []
      = .ok ⟨[], []⟩ (some (.Branch 2)) := by
  have h1 := (block_control_result_mapping [] [] 2 ⟨[], []⟩ .Empty [] [.I32Const 7] []).1
    ⟨[], []⟩ (by decide)
  have h2 := (block_control_result_mapping [] [] 2 ⟨[], []⟩ .Empty [.Return] [.I32Const 7] []).2.1
    ⟨[], []⟩ (by decide)
  have h3 := (block_control_result_mapping [] [] 2 ⟨[], []⟩ .Empty [.Branch ⟨0⟩]
    [.I32Const 7] []).2.2.1 ⟨[], []⟩ (by decide)
  have h4 := (block_control_result_mapping [] [] 2 ⟨[], []⟩ .Empty [.Branch ⟨3⟩]
    [.I32Const 7] []).2.2.2 ⟨[], []⟩ 2 (by decide)
  exact ⟨h1.trans (by decide), h2, h3.trans (by decide), h4⟩

end Wario

namespace Wario

/-- Claim C3: executing `Loop(_, body')` re-executes `body'` from its start
both when `body'` completes normally and when it yields `Branch(0)`; it
exits only on `Return` (propagated unchanged) or `Branch(k)` with `k > 0`
(propagated as `Branch(k-1)`); hence a loop body that never yields a
`Branch` or `Return` result makes execution non-terminating (the model can
only run out of fuel). -/
theorem loop_control_result_mapping (F : List Func) (E : List ExternFunction)
    (fuel : Nat) (m : Machine) (bt : BlockType) (body' rest : List Instruction)
    (locals : List Int) :
    (∀ m', invoke F E fuel m body' locals = .ok m' none →
      invoke F E (fuel + 1) m (.Loop bt body' :: rest) locals
        = invoke F E fuel m' (.Loop bt body' :: rest) locals) ∧
    (∀ m', invoke F E fuel m body' locals = .ok m' (some (.Branch 0)) →
      invoke F E (fuel + 1) m (.Loop bt body' :: rest) locals
        = invoke F E fuel m' (.Loop bt body' :: rest) locals) ∧
    (∀ m', invoke F E fuel m body' locals = .ok m' (some .Return) →
      invoke F E (fuel + 1) m (.Loop bt body' :: rest) locals
        = .ok m' (some .Return)) ∧
    (∀ m' k, invoke F E fuel m body' locals = .ok m' (some (.Branch (k + 1))) →
      invoke F E (fuel + 1) m (.Loop bt body' :: rest) locals
        = .ok m' (some (.Branch k))) ∧
    ((∀ f m₀, invoke F E f m₀ body' locals = .timeout ∨
        ∃ m₁, invoke F E f m₀ body' locals = .ok m₁ none) →
      ∀ f m₀, invoke F E f m₀ (.Loop bt body' :: rest) locals = .timeout) := by
  refine ⟨fun m' h => by simp [invoke, h], fun m' h => by simp [invoke, h],
    fun m' h => by simp [invoke, h], fun m' k h => by simp [invoke, h], ?_⟩
  intro hbody f
  induction f with
  | zero => intro m₀; simp [invoke]
  | succ n ih =>
    intro m₀
    rcases hbody n m₀ with h | ⟨m₁, h⟩
    · simp [invoke, h]
    · simpa [invoke, h] using ih m₁

/-- Witness for `loop_control_result_mapping`: all five clauses applied at
concrete inputs; the divergence clause is instantiated with the empty loop
body, which always completes normally, so the loop exhausts any fuel. -/
theorem loop_control_result_mapping_witness :
    invoke [] [] 3 ⟨[], []⟩ [.Loop .Empty [.I32Const 1]] []
      = invoke [] [] 2 ⟨[1], []⟩ [.Loop .Empty [.I32Const 1]] [] ∧
    invoke [] [] 3 ⟨[], []⟩ [.Loop .Empty [.Branch ⟨0⟩]] []
      = invoke [] [] 2 ⟨[], []⟩ [.Loop .Empty [.Branch ⟨0⟩]] [] ∧
    invoke [] [] 3 ⟨[], []⟩ [.Loop .Empty [.Return]] [] = .ok ⟨[], []⟩ (some .Return) ∧
    invoke [] [] 3 ⟨[], []⟩ [.Loop .Empty [.Branch ⟨2⟩]] []
      = .ok ⟨[], []⟩ (some (.Branch 1)) ∧
    invoke [] [] 1000 ⟨[], []⟩ [.Loop .Empty []] [] = .timeout := by
  have h1 := (loop_control_result_mapping [] [] 2 ⟨[], []⟩ .Empty [.I32Const 1] [] []).1
    ⟨[1], []⟩ (by decide)
  have h2 := (loop_control_result_mapping [] [] 2 ⟨[], []⟩ .Empty [.Branch ⟨0⟩] [] []).2.1
    ⟨[], []⟩ (by decide)
  have h3 := (loop_control_result_mapping [] [] 2 ⟨[], []⟩ .Empty [.Return] [] []).2.2.1
    ⟨[], []⟩ (by decide)
  have h4 := (loop_control_result_mapping [] [] 2 ⟨[], []⟩ .Empty [.Branch ⟨2⟩] [] []).2.2.2.1
    ⟨[], []⟩ 1 (by decide)
  have h5 := (loop_control_result_mapping [] [] 0 ⟨[], []⟩ .Empty [] [] []).2.2.2.2
    (fun f m₀ => by cases f with
      | zero => exact Or.inl rfl
      | succ n => exact Or.inr ⟨m₀, rfl⟩)
    1000 ⟨[], []⟩
  exact ⟨h1, h2, h3, h4, h5⟩

/-- Claim C4: `Call(fi)` with `fi < len(module_functions)` pops exactly
`param_count` arguments into a fresh locals frame — the topmost popped
value becoming `locals[param_count-1]`, i.e. the frame keeps the original
pushed order `(stack.take n).reverse` — executes the callee's body
recursively with that frame, and discards any `Return`/`Branch` control
result of the callee, so the caller simply continues with the rest of its
body from the callee's final machine state. -/
theorem call_module_function_semantics (F : List Func) (E : List ExternFunction)
    (fuel : Nat) (m : Machine) (rest : List Instruction) (locals : List Int)
    (fi : Nat) (f : Func)
    (hf : F.get? fi = some f)
    (hn : f.ftype.parameter_types.length ≤ m.stack.length)
    (m' : Machine) (cf : Option ControlFlow)
    (hcallee : invoke F E fuel
        { m with stack := m.stack.drop f.ftype.parameter_types.length }
        f.code.body
        ((m.stack.take f.ftype.parameter_types.length).reverse) = .ok m' cf) :
    invoke F E (fuel + 1) m (.Call ⟨fi⟩ :: rest) locals
      = invoke F E fuel m' rest locals := by
  obtain ⟨hlt, hget⟩ := List.get?_eq_some.mp hf
  simp only [invoke, dif_pos hlt, hget, if_pos hn, hcallee]

/-- Witness for `call_module_function_semantics`: the two-argument
subtraction function from the repository's own tests, called on stack
`[5, 3]` (3 on top): arguments land in the frame as `[5, 3]`, the callee
leaves `5 - 3 = 2`, and its `None` result lets the caller continue. -/
theorem call_module_function_semantics_witness :
    invoke [⟨⟨[.I32, .I32], [.I32]⟩, ⟨[], [.LocalGet ⟨0⟩, .LocalGet ⟨1⟩, .I32Sub]⟩⟩] []
      9 ⟨[3, 5], []⟩ [.Call ⟨0⟩] [] = .ok ⟨[2], []⟩ none := by
  have h := call_module_function_semantics
    [⟨⟨[.I32, .I32], [.I32]⟩, ⟨[], [.LocalGet ⟨0⟩, .LocalGet ⟨1⟩, .I32Sub]⟩⟩] []
    8 ⟨[3, 5], []⟩ [] [] 0
    ⟨⟨[.I32, .I32], [.I32]⟩, ⟨[], [.LocalGet ⟨0⟩, .LocalGet ⟨1⟩, .I32Sub]⟩⟩
    rfl (by decide) ⟨[2], []⟩ none (by decide)
  exact h.trans (by decide)

/-- Claim C8: `Call(fi)` with `fi ≥ len(module_functions)` dispatches to
`extern_functions[fi - len(module_functions)]`; the callback receives
exactly the popped `param_count` arguments in their original pushed order
`(stack.take n).reverse`; a `Some v` result is pushed, and a `None` result
pushes nothing, leaving the stack as it was after the arguments were
popped. -/
theorem call_extern_function_semantics (F : List Func) (E : List ExternFunction)
    (fuel : Nat) (m : Machine) (rest : List Instruction) (locals : List Int)
    (fi : Nat) (ef : ExternFunction)
    (hge : F.length ≤ fi)
    (hef : E.get? (fi - F.length) = some ef)
    (hn : ef.param_count ≤ m.stack.length) :
    (∀ v, ef.fn ((m.stack.take ef.param_count).reverse) = some v →
      invoke F E (fuel + 1) m (.Call ⟨fi⟩ :: rest) locals
        = invoke F E fuel { m with stack := v :: m.stack.drop ef.param_count } rest locals) ∧
    (ef.fn ((m.stack.take ef.param_count).reverse) = none →
      invoke F E (fuel + 1) m (.Call ⟨fi⟩ :: rest) locals
        = invoke F E fuel { m with stack := m.stack.drop ef.param_count } rest locals) := by
  constructor
  · intro v hv
    simp only [invoke, dif_neg (Nat.not_lt.mpr hge), hef, if_pos hn, hv]
  · intro hv
    simp only [invoke, dif_neg (Nat.not_lt.mpr hge), hef, if_pos hn, hv]

/-- Witness for `call_extern_function_semantics`: the two-argument
subtraction callback from the repository's own tests on stack `[5, 3]`
(3 on top) receives `[5, 3]` and returns `Some 2`, which is pushed; a
`None`-returning callback leaves just the popped stack. -/
theorem call_extern_function_semantics_witness :
    invoke [] [⟨2, fun args => match args with | [a, b] => some (a - b) | _ => none⟩]
      9 ⟨[3, 5], []⟩ [.Call ⟨0⟩] [] = .ok ⟨[2], []⟩ none ∧
    invoke [] [⟨2, fun _ => none⟩] 9 ⟨[3, 5], []⟩ [.Call ⟨0⟩] []
      = .ok ⟨[], []⟩ none := by
  have h1 := (call_extern_function_semantics []
    [⟨2, fun args => match args with | [a, b] => some (a - b) | _ => none⟩]
    8 ⟨[3, 5], []⟩ [] [] 0 ⟨2, fun args => match args with | [a, b] => some (a - b) | _ => none⟩
    (by decide) rfl (by decide)).1 2 rfl
  have h2 := (call_extern_function_semantics [] [⟨2, fun _ => none⟩]
    8 ⟨[3, 5], []⟩ [] [] 0 ⟨2, fun _ => none⟩
    (by decide) rfl (by decide)).2 rfl
  exact ⟨h1.trans (by decide), h2.trans (by decide)⟩

/-- Claim C1 (code bug): the `I32Add`/`I32Sub`/`I32Mul` handlers pop right
then left, but compute `left + right` / `left - right` / `left * right`
with Rust's plain operators: under the default dev/test profile these are
overflow-checked, so an operand pair whose mathematical result leaves the
signed 32-bit range panics instead of wrapping.  In-range pairs follow the
claimed pop order (`5 - 3 = 2` with `3` on top). -/
theorem i32_arith_overflow_panics :
    invoke [] [] 9 ⟨[1, 2147483647], []⟩ [.I32Add] [] = .panik ∧
    invoke [] [] 9 ⟨[1, -2147483648], []⟩ [.I32Sub] [] = .panik ∧
    invoke [] [] 9 ⟨[65536, 65536], []⟩ [.I32Mul] [] = .panik ∧
    invoke [] [] 9 ⟨[3, 5], []⟩ [.I32Sub] [] = .ok ⟨[2], []⟩ none := by
  refine ⟨by decide, by decide, by decide, by decide⟩

end Wario


namespace Wario

/-! ### Helper lemmas about the byte-stream primitives -/

/-- A value below 128 is fixed by the 7-bit mask. -/
theorem byte_and_127 (n : Nat) (h : n ≤ 127) : n &&& 127 = n := by
  apply Nat.eq_of_testBit_eq
  intro i
  rw [Nat.testBit_land]
  by_cases hi : i < 7
  · have h7 : Nat.testBit 127 i = true := by interval_cases i <;> decide
    simp [h7]
  · have h2 : (127 : Nat) < 2 ^ i :=
      lt_of_lt_of_le (by norm_num) (Nat.pow_le_pow_right (by norm_num) (show 7 ≤ i by omega))
    have hn : Nat.testBit n i = false := Nat.testBit_eq_false_of_lt (by omega)
    simp [hn]

/-- A value below 128 has no continuation bit. -/
theorem byte_and_128 (n : Nat) (h : n ≤ 127) : n &&& 128 = 0 := by
  have h7 : Nat.testBit n 7 = false := Nat.testBit_eq_false_of_lt (by omega)
  have h2 := Nat.and_two_pow n 7
  norm_num [h7] at h2
  simpa using h2

/-- A one-byte read at an in-bounds position returns that byte. -/
theorem readFixed_one (data : List Nat) (pos b : Nat) (h : data.get? pos = some b) :
    readFixed data pos 1 = .ok ([b], pos + 1) := by
  obtain ⟨hlt, hget⟩ := List.get?_eq_some.mp h
  have hmin : min 1 (data.length - pos) = 1 := by omega
  have hdrop : data.drop pos = b :: data.drop (pos + 1) := by
    rw [List.drop_eq_getElem_cons hlt, ← hget]
    simp [List.get_eq_getElem]
  rw [readFixed]
  simp only [hmin, hdrop, if_pos]
  simp

/-- Reading one byte at an in-bounds position yields that byte. -/
theorem parseU8_get (data : List Nat) (pos b : Nat) (h : data.get? pos = some b) :
    parseU8 data pos = .ok (b, pos + 1) := by
  rw [parseU8, readFixed_one data pos b h]
  rfl

/-- A single byte below 128 is a complete unsigned LEB128 encoding of
itself. -/
theorem parse_leb128_u32_single (data : List Nat) (pos b : Nat)
    (h : data.get? pos = some b) (hb : b ≤ 127) :
    parse_leb128_u32 data pos = .ok (b, pos + 1) := by
  have h32 : b % 4294967296 = b := Nat.mod_eq_of_lt (by omega)
  simp [parse_leb128_u32, parse_leb128_u32_go, pbind, parseU8_get data pos b h,
    byte_and_127 b hb, byte_and_128 b hb, Nat.shiftLeft_zero, Nat.zero_or, h32]

/-- A fixed-width read fully inside the stream returns the slice. -/
theorem readFixed_full (data : List Nat) (pos size : Nat) (h : pos + size ≤ data.length) :
    readFixed data pos size = .ok ((data.drop pos).take size, pos + size) := by
  unfold readFixed
  have hmin : min size (data.length - pos) = size := by omega
  simp [hmin]

/-- A fixed-width read that obtains at least one byte but fewer than
requested is an `Err` naming the two sizes. -/
theorem readFixed_short_read (data : List Nat) (pos size : Nat)
    (h1 : pos < data.length) (h2 : data.length - pos < size) :
    readFixed data pos size = .error (.Err ("Unable to read data: expected size to be read: "
      ++ toString size ++ " actual size read: " ++ toString (data.length - pos))) := by
  unfold readFixed
  have hmin : min size (data.length - pos) = data.length - pos := by omega
  simp only [hmin]
  rw [if_neg (by omega), if_neg (by omega)]

/-- A read starting at or past the end of the stream is the clean `Eof`
sentinel, wherever in the grammar it occurs. -/
theorem readFixed_eof (data : List Nat) (pos size : Nat)
    (h1 : data.length ≤ pos) (h2 : 0 < size) :
    readFixed data pos size = .error .Eof := by
  unfold readFixed
  have hmin : min size (data.length - pos) = 0 := by omega
  simp only [hmin]
  rw [if_neg (by omega)]
  simp

end Wario

namespace Wario

/-- Claim C9: the unsigned LEB128 decoder places no bound on the number of
continuation-flagged bytes: five continuation bytes are consumed without
complaint (second conjunct: four continuation bytes already decode fine,
with no overlong-encoding rejection), and on the sixth byte the
accumulated shift is 35, so the 32-bit left shift violates the
shift-within-width precondition (a debug-profile panic) instead of the
function rejecting the overlong encoding or dropping excess groups. -/
theorem leb128_u32_unbounded_continuation_shift_panics :
    parse_leb128_u32 [0x80, 0x80, 0x80, 0x80, 0x80, 0x01] 0
      = .error (.panik (.shlOverflow 35)) ∧
    parse_leb128_u32 [0x80, 0x80, 0x80, 0x80, 0x0f] 0
      = .ok (4026531840, 5) := ⟨rfl, rfl⟩

/-- Claim C10: `Limits::parse` inspects the leading flag byte only for
equality with 1: any other flag byte — including invalid wasm flags such
as 2 — parses successfully with `max = None` instead of being rejected. -/
theorem limits_flag_byte_only_compared_with_one (b : Nat) (_hb255 : b ≤ 255)
    (hb : b ≠ 1) :
    Limits.parse [b, 5] 0 = .ok (⟨5, none⟩, 2) := by
  have h5 : parse_leb128_u32 [b, 5] 1 = .ok (5, 2) :=
    parse_leb128_u32_single [b, 5] 1 5 rfl (by norm_num)
  simp [Limits.parse, pbind, parseU8_get [b, 5] 0 b rfl, h5, hb]

/-- Witness for `limits_flag_byte_only_compared_with_one` at the invalid
wasm flag byte 2. -/
theorem limits_flag_byte_only_compared_with_one_witness :
    Limits.parse [2, 5] 0 = .ok (⟨5, none⟩, 2) :=
  limits_flag_byte_only_compared_with_one 2 (by decide) (by decide)

end Wario

namespace Wario

/-- Claim C7 counterexample: a stream consisting of the preamble and a
Function section with one type index (and no Code section) parses
successfully into a module with `len(functions) = 1` but `len(codes) = 0`,
so a successfully decoded module need NOT pair each function type index
with a code entry. -/
theorem module_parse_function_section_without_code_section :
    Module.parse [0x00, 0x61, 0x73, 0x6d, 0x01, 0x00, 0x00, 0x00,
        0x03, 0x02, 0x01, 0x00]
      = .ok ⟨⟨[0x00, 0x61, 0x73, 0x6d], [1, 0, 0, 0]⟩, [], [], [⟨0⟩], [], [], [], []⟩ ∧
    (⟨⟨[0x00, 0x61, 0x73, 0x6d], [1, 0, 0, 0]⟩, [], [], [⟨0⟩], [], [], [], []⟩
      : Module).functions.length = 1 ∧
    (⟨⟨[0x00, 0x61, 0x73, 0x6d], [1, 0, 0, 0]⟩, [], [], [⟨0⟩], [], [], [], []⟩
      : Module).codes.length = 0 :=
  ⟨rfl, rfl, rfl⟩

/-- Claim C7 (amended): `Module::parse` performs no cross-check between the
Function and Code sections — `codes` and `functions` are independently the
payloads of the last such sections (empty when absent).  A Code-only
stream yields `len(codes) = 1, len(functions) = 0`; a stream supplying
both sections with one entry each yields equal lengths. -/
theorem module_parse_code_function_lengths_independent :
    Module.parse [0x00, 0x61, 0x73, 0x6d, 0x01, 0x00, 0x00, 0x00,
        0x0a, 0x04, 0x01, 0x02, 0x00, 0x0b]
      = .ok ⟨⟨[0x00, 0x61, 0x73, 0x6d], [1, 0, 0, 0]⟩,
          [], [], [], [], [], [], [⟨[], []⟩]⟩ ∧
    Module.parse [0x00, 0x61, 0x73, 0x6d, 0x01, 0x00, 0x00, 0x00,
        0x03, 0x02, 0x01, 0x00, 0x0a, 0x04, 0x01, 0x02, 0x00, 0x0b]
      = .ok ⟨⟨[0x00, 0x61, 0x73, 0x6d], [1, 0, 0, 0]⟩,
          [], [], [⟨0⟩], [], [], [], [⟨[], []⟩]⟩ :=
  ⟨rfl, rfl⟩

/-- Claim C6 counterexample: a stream that ends in the middle of a
structured element — here right after a Type section's id byte, before its
size — is NOT reported as an `Err`: the zero-byte read inside the section
header yields the clean `Eof` sentinel, `parse_sections` accepts it as the
end of the section list, and `Module::parse` succeeds. -/
theorem module_parse_truncated_after_section_id_succeeds :
    Module.parse [0x00, 0x61, 0x73, 0x6d, 0x01, 0x00, 0x00, 0x00, 0x01]
      = .ok ⟨⟨[0x00, 0x61, 0x73, 0x6d], [1, 0, 0, 0]⟩, [], [], [], [], [], [], []⟩ :=
  rfl

/-- Claim C6 (amended): the reader distinguishes only partial fixed-width
reads from zero-byte reads.  (1) A fixed-width read that obtains at least
one byte but fewer than requested is an `Err`.  (2) A read starting at or
past the end of the stream is the clean `Eof` sentinel, wherever it
occurs.  (3) `parse_sections` treats an `Eof` escaping `Section::parse` —
not only at the leading section-boundary read — as the clean end of the
section list.  (4) Concretely, a section truncated after its id byte
yields `Eof`, not `Err`. -/
theorem reader_eof_err_taxonomy :
    (∀ data pos size, pos < data.length → data.length - pos < size →
      ∃ msg, readFixed data pos size = .error (.Err msg)) ∧
    (∀ data pos size, data.length ≤ pos → 0 < size →
      readFixed data pos size = .error .Eof) ∧
    (∀ data fuel n pos, Section.parse data fuel pos = .error .Eof →
      parse_sections data fuel (n + 1) pos = .ok ([], pos)) ∧
    Section.parse [0x01] 9 0 = .error .Eof := by
  exact ⟨fun data pos size h1 h2 => ⟨_, readFixed_short_read data pos size h1 h2⟩,
    fun data pos size h1 h2 => readFixed_eof data pos size h1 h2,
    fun data fuel n pos h => by simp [parse_sections, h], rfl⟩

/-- Witness for `reader_eof_err_taxonomy`: a 4-byte read on a 2-byte
stream errs; a 1-byte read past the end is `Eof`; `parse_sections` on the
truncated Type section accepts the mid-header `Eof` as a clean end. -/
theorem reader_eof_err_taxonomy_witness :
    (∃ msg, readFixed [7, 7] 0 4 = .error (.Err msg)) ∧
    readFixed [7] 1 1 = .error .Eof ∧
    parse_sections [0x01] 9 5 0 = .ok ([], 0) :=
  ⟨reader_eof_err_taxonomy.1 [7, 7] 0 4 (by decide) (by decide),
   reader_eof_err_taxonomy.2.1 [7] 1 1 (by decide) (by decide),
   reader_eof_err_taxonomy.2.2.1 [0x01] 9 4 0 reader_eof_err_taxonomy.2.2.2⟩

end Wario

namespace Wario

/-! ### Helper lemmas for the decode-error taxonomy -/


/-- An `Err` from the preamble surfaces unchanged from `Module::parse`. -/
theorem module_parse_of_preamble_err (data : List Nat) (msg : String)
    (h : Preamble.parse data 0 = .error (.Err msg)) : Module.parse data = .err msg := by
  unfold Module.parse
  rw [h]

/-- Existential form of `module_parse_of_preamble_err`. -/
theorem module_parse_err_of_preamble_err (data : List Nat)
    (h : ∃ msg, Preamble.parse data 0 = .error (.Err msg)) :
    ∃ msg, Module.parse data = .err msg := by
  obtain ⟨msg, h⟩ := h
  exact ⟨msg, module_parse_of_preamble_err data msg h⟩

/-- An `Eof` in the preamble becomes the unexpected-end-of-file error. -/
theorem module_parse_of_preamble_eof (data : List Nat)
    (h : Preamble.parse data 0 = .error .Eof) :
    Module.parse data = .err "Unexpected end of file detected" := by
  unfold Module.parse
  rw [h]

/-- Any stream whose first four bytes are not the wasm magic is rejected
with an error result (wrong bytes, a partial read, or an empty stream). -/
theorem module_parse_bad_magic (data : List Nat)
    (h : data.take 4 ≠ [0x00, 0x61, 0x73, 0x6d]) :
    ∃ msg, Module.parse data = .err msg := by
  rcases Nat.lt_or_ge data.length 4 with h4 | h4
  · rcases Nat.eq_zero_or_pos data.length with h0 | h0
    · refine ⟨_, module_parse_of_preamble_eof data ?_⟩
      unfold Preamble.parse
      rw [readFixed_eof data 0 4 (by omega) (by decide)]
      rfl
    · apply module_parse_err_of_preamble_err
      unfold Preamble.parse
      rw [readFixed_short_read data 0 4 (by omega) (by omega)]
      exact ⟨_, rfl⟩
  · apply module_parse_err_of_preamble_err
    unfold Preamble.parse
    rw [readFixed_full data 0 4 (by omega)]
    simp only [pbind, List.drop_zero]
    rw [if_pos h]
    exact ⟨_, rfl⟩

/-- Any stream with the right magic but wrong (or truncated) version bytes
is rejected with an error result. -/
theorem module_parse_bad_version (data : List Nat)
    (hm : data.take 4 = [0x00, 0x61, 0x73, 0x6d])
    (hv : (data.drop 4).take 4 ≠ [1, 0, 0, 0]) :
    ∃ msg, Module.parse data = .err msg := by
  have h4 : 4 ≤ data.length := by
    have hlen := congrArg List.length hm
    simp [List.length_take] at hlen
    omega
  have hmagic : ¬(data.take 4 ≠ [0x00, 0x61, 0x73, 0x6d]) := by simp [hm]
  rcases Nat.lt_or_ge data.length 8 with h8 | h8
  · rcases Nat.eq_or_lt_of_le h4 with h44 | h44
    · refine ⟨_, module_parse_of_preamble_eof data ?_⟩
      unfold Preamble.parse
      rw [readFixed_full data 0 4 (by omega)]
      simp only [pbind, List.drop_zero]
      rw [if_neg hmagic, readFixed_eof data 4 4 (by omega) (by decide)]
    · apply module_parse_err_of_preamble_err
      unfold Preamble.parse
      rw [readFixed_full data 0 4 (by omega)]
      simp only [pbind, List.drop_zero]
      rw [if_neg hmagic, readFixed_short_read data 4 4 (by omega) (by omega)]
      exact ⟨_, rfl⟩
  · apply module_parse_err_of_preamble_err
    unfold Preamble.parse
    rw [readFixed_full data 0 4 (by omega)]
    simp only [pbind, List.drop_zero]
    rw [if_neg hmagic, readFixed_full data 4 4 (by omega)]
    simp only [pbind]
    rw [if_pos hv]
    exact ⟨_, rfl⟩

/-- A section id above 11 is rejected with an error result once the size
has been read (a single zero size byte here). -/
theorem section_parse_unknown_id (fuel id : Nat) (rest : List Nat)
    (h12 : 11 < id) (_h255 : id ≤ 255) :
    ∃ msg, Section.parse (id :: 0x00 :: rest) fuel 0 = .error (.Err msg) := by
  obtain ⟨k, rfl⟩ : ∃ k, id = k + 12 := ⟨id - 12, by omega⟩
  unfold Section.parse
  rw [parseU8_get ((k + 12) :: 0x00 :: rest) 0 (k + 12) rfl]
  simp only [pbind]
  rw [parse_leb128_u32_single ((k + 12) :: 0x00 :: rest) 1 0 rfl (by decide)]
  exact ⟨_, rfl⟩

/-- A value-type byte other than `0x7f/0x7e/0x7d/0x7c` is rejected with an
error result. -/
theorem valuetype_parse_invalid (b : Nat) (rest : List Nat) (_h255 : b ≤ 255)
    (h : b ∉ ([0x7f, 0x7e, 0x7d, 0x7c] : List Nat)) :
    ∃ msg, ValueType.parse (b :: rest) 0 = .error (.Err msg) := by
  simp only [List.mem_cons, List.not_mem_nil, or_false, not_or] at h
  obtain ⟨h1, h2, h3, h4⟩ := h
  unfold ValueType.parse
  rw [parseU8_get (b :: rest) 0 b rfl]
  simp only [pbind]
  exact ⟨_, rfl⟩

/-- A mutability byte other than `0x00/0x01` is rejected with an error
result. -/
theorem mutability_parse_invalid (b : Nat) (rest : List Nat) (_h255 : b ≤ 255)
    (h : b ∉ ([0x00, 0x01] : List Nat)) :
    ∃ msg, Mutability.parse (b :: rest) 0 = .error (.Err msg) := by
  simp only [List.mem_cons, List.not_mem_nil, or_false, not_or] at h
  obtain ⟨h1, h2⟩ := h
  unfold Mutability.parse
  rw [parseU8_get (b :: rest) 0 b rfl]
  simp only [pbind]
  exact ⟨_, rfl⟩

/-- An import-descriptor byte other than `0x00`–`0x03` is rejected with an
error result. -/
theorem import_descriptor_parse_invalid (b : Nat) (rest : List Nat) (_h255 : b ≤ 255)
    (h : b ∉ ([0x00, 0x01, 0x02, 0x03] : List Nat)) :
    ∃ msg, ImportDescriptor.parse (b :: rest) 0 = .error (.Err msg) := by
  simp only [List.mem_cons, List.not_mem_nil, or_false, not_or] at h
  obtain ⟨h1, h2, h3, h4⟩ := h
  unfold ImportDescriptor.parse
  rw [parseU8_get (b :: rest) 0 b rfl]
  simp only [pbind]
  exact ⟨_, rfl⟩

/-- Reading `bytes.length` single bytes in sequence returns exactly those
bytes. -/
theorem parseVecN_parseU8_append (bytes : List Nat) :
    ∀ (pre rest : List Nat),
      parseVecN (parseU8 (pre ++ bytes ++ rest)) bytes.length pre.length
        = .ok (bytes, pre.length + bytes.length) := by
  induction bytes with
  | nil => intro pre rest; simp [parseVecN]
  | cons b bs ih =>
    intro pre rest
    have hget : (pre ++ (b :: bs) ++ rest).get? pre.length = some b := by
      rw [List.append_assoc, List.get?_append_right (Nat.le_refl _)]
      simp
    have hrec := ih (pre ++ [b]) rest
    simp only [List.length_append, List.length_cons, List.length_nil] at hrec
    have hlist : (pre ++ [b]) ++ bs ++ rest = pre ++ (b :: bs) ++ rest := by
      simp
    rw [hlist] at hrec
    simp only [List.length_cons, parseVecN, pbind, parseU8_get _ pre.length b hget, hrec]
    have : pre.length + 1 + bs.length = pre.length + (bs.length + 1) := by omega
    rw [this]

/-- A length-prefixed byte vector that is not valid UTF-8 makes
`Name::parse` return an error result. -/
theorem name_parse_invalid_utf8 (bytes rest : List Nat)
    (hlen : bytes.length ≤ 127) (h : validUtf8 bytes = false) :
    ∃ msg, Name.parse (bytes.length :: (bytes ++ rest)) 0 = .error (.Err msg) := by
  unfold Name.parse parseVec
  rw [parse_leb128_u32_single (bytes.length :: (bytes ++ rest)) 0 bytes.length rfl hlen]
  simp only [pbind]
  have hvec := parseVecN_parseU8_append bytes [bytes.length] rest
  simp only [List.length_cons, List.length_nil, List.singleton_append,
    List.cons_append, List.nil_append] at hvec
  rw [hvec]
  simp only [pbind, h]
  exact ⟨_, rfl⟩

/-- An opcode with no arm in `Vec<Instruction>::parse` hits the `panic!`
arm, whose payload carries the opcode, its stream position, and the
instructions decoded so far. -/
theorem parseInstructions_unknown_opcode (fuel b : Nat) (rest : List Nat)
    (sofar : List Instruction) (_h255 : b ≤ 255) (h : b ∉ recognizedOpcodes) :
    parseInstructions (b :: rest) (fuel + 1) 0 sofar
      = .error (.panik (.unsupportedOpcode b 0 sofar)) := by
  simp only [recognizedOpcodes, List.mem_cons, List.not_mem_nil, or_false, not_or] at h
  obtain ⟨e05, e0B, e00, e02, e03, e04, e0C, e0D, e0F, e10,
    e20, e21, e23, e24, e28, e36, e41, e44, e46, e4A,
    e63, e64, e66, e6A, e6B, e6C, eA0, eA1, eA2, eA3⟩ := h
  simp only [parseInstructions]
  rw [parseU8_get (b :: rest) 0 b rfl]
  simp only [pbind]

end Wario

namespace Wario

/-- Claim C5 counterexample: an unknown opcode (0x07, reached here inside a
Global section's initialiser expression) does NOT surface as an error
result value from `Module::parse`: it aborts via the `panic!` arm of
`Vec<Instruction>::parse` (the panic payload, not an error result, carries
the file position 13 and the empty list of instructions decoded so far). -/
theorem unknown_opcode_panics_not_error_result :
    Module.parse [0x00, 0x61, 0x73, 0x6d, 0x01, 0x00, 0x00, 0x00,
        0x06, 0x05, 0x01, 0x7f, 0x00, 0x07]
      = .panik (.unsupportedOpcode 0x07 13 []) := rfl

/-- Claim C5 (amended): invalid magic or version, invalid section id,
invalid value-type/mutability/import-descriptor bytes, and invalid UTF-8
in a `Name` are surfaced as error result values (message or the `Eof`
sentinel mapped to a message); but section/code size–position mismatches
abort via `assert_eq!` panics, and unknown opcodes abort via a `panic!`
whose payload carries the file position and the instructions decoded so
far — neither reaches the caller as an error result. -/
theorem decode_error_reporting_taxonomy :
    (∀ data, data.take 4 ≠ [0x00, 0x61, 0x73, 0x6d] →
      ∃ msg, Module.parse data = .err msg) ∧
    (∀ data, data.take 4 = [0x00, 0x61, 0x73, 0x6d] →
      (data.drop 4).take 4 ≠ [1, 0, 0, 0] → ∃ msg, Module.parse data = .err msg) ∧
    (∀ fuel id rest, 11 < id → id ≤ 255 →
      ∃ msg, Section.parse (id :: 0x00 :: rest) fuel 0 = .error (.Err msg)) ∧
    (∀ b rest, b ≤ 255 → b ∉ ([0x7f, 0x7e, 0x7d, 0x7c] : List Nat) →
      ∃ msg, ValueType.parse (b :: rest) 0 = .error (.Err msg)) ∧
    (∀ b rest, b ≤ 255 → b ∉ ([0x00, 0x01] : List Nat) →
      ∃ msg, Mutability.parse (b :: rest) 0 = .error (.Err msg)) ∧
    (∀ b rest, b ≤ 255 → b ∉ ([0x00, 0x01, 0x02, 0x03] : List Nat) →
      ∃ msg, ImportDescriptor.parse (b :: rest) 0 = .error (.Err msg)) ∧
    (∀ bytes rest, bytes.length ≤ 127 → validUtf8 bytes = false →
      ∃ msg, Name.parse (bytes.length :: (bytes ++ rest)) 0 = .error (.Err msg)) ∧
    (∀ fuel b rest sofar, b ≤ 255 → b ∉ recognizedOpcodes →
      parseInstructions (b :: rest) (fuel + 1) 0 sofar
        = .error (.panik (.unsupportedOpcode b 0 sofar))) ∧
    Module.parse [0x00, 0x61, 0x73, 0x6d, 0x01, 0x00, 0x00, 0x00, 0x01, 0x63, 0x00]
      = .panik (.assertEqFailed 99 1) :=
  ⟨module_parse_bad_magic, module_parse_bad_version, section_parse_unknown_id,
   valuetype_parse_invalid, mutability_parse_invalid, import_descriptor_parse_invalid,
   name_parse_invalid_utf8, parseInstructions_unknown_opcode, rfl⟩

/-- Witness for `decode_error_reporting_taxonomy`: each quantified clause
applied at a concrete invalid input. -/
theorem decode_error_reporting_taxonomy_witness :
    (∃ msg, Module.parse [9, 9, 9, 9] = .err msg) ∧
    (∃ msg, Module.parse [0x00, 0x61, 0x73, 0x6d, 2, 0, 0, 0] = .err msg) ∧
    (∃ msg, Section.parse [12, 0x00] 9 0 = .error (.Err msg)) ∧
    (∃ msg, ValueType.parse [0x10] 0 = .error (.Err msg)) ∧
    (∃ msg, Mutability.parse [2] 0 = .error (.Err msg)) ∧
    (∃ msg, ImportDescriptor.parse [4] 0 = .error (.Err msg)) ∧
    (∃ msg, Name.parse [1, 0xff] 0 = .error (.Err msg)) ∧
    parseInstructions [0x07] 1 0 [] = .error (.panik (.unsupportedOpcode 0x07 0 [])) :=
  by
  refine ⟨decode_error_reporting_taxonomy.1 [9, 9, 9, 9] (by decide),
    decode_error_reporting_taxonomy.2.1 [0x00, 0x61, 0x73, 0x6d, 2, 0, 0, 0]
      (by decide) (by decide),
    decode_error_reporting_taxonomy.2.2.1 9 12 [] (by decide) (by decide),
    decode_error_reporting_taxonomy.2.2.2.1 0x10 [] (by decide) (by decide),
    decode_error_reporting_taxonomy.2.2.2.2.1 2 [] (by decide) (by decide),
    decode_error_reporting_taxonomy.2.2.2.2.2.1 4 [] (by decide) (by decide),
    ?_, ?_⟩
  · simpa using decode_error_reporting_taxonomy.2.2.2.2.2.2.1 [0xff] [] (by decide) rfl
  · simpa using
      decode_error_reporting_taxonomy.2.2.2.2.2.2.2.1 0 0x07 [] [] (by decide) (by decide)

end Wario
